import Mathlib

/-!
Verification of the package-assembly pipeline of the TypeScript
CloudFormation CLI plugin (`python/rpdk/typescript/codegen.py`).

The pipeline is shallowly embedded:

* A filesystem is a finite list of entries; each entry has a path
  (a list of components, as in `pathlib`) and a kind.  `Path.rglob("*")`
  is modelled as selecting the entries whose path strictly extends the
  source path, in list order (the implementation's stable traversal order).
* Python's `Path.is_file()` follows symbolic links: it is true for a
  regular file and for a symlink that resolves to a regular file, so a
  symlink entry carries the resolved target's bytes when it resolves to
  a regular file (`Path.resolve()` is applied before the bytes are read).
* A zip archive is a sequential list of (name, data) entries; writing
  appends.  The nested `ResourceProvider.zip` entry holds the inner
  archive's entry list.
* `subprocess.run` of the composed build command is modelled by an
  environment `env : String → BuildOutcome` mapping the command that
  was executed to the external world's response: a post-build
  filesystem on success, or a process failure
  (`CalledProcessError` / `FileNotFoundError`) that `_build` converts
  into `DownstreamError "local build failed"` chaining the cause.
* `shutil.rmtree` fails with `FileNotFoundError` when the path has no
  entry; `_remove_build_artifacts` catches exactly that error.
-/

namespace Codegen

/-- A filesystem path, as an ordered list of components. -/
abbrev FsPath := List String

/-- The kind of a filesystem entry.  A symlink records the bytes of the
regular file it resolves to, when it resolves to one (`none` for a broken
link or a link to a non-regular target). -/
inductive FSKind where
  | file (contents : List Nat)
  | dir
  | symlink (resolvesTo : Option (List Nat))
  | special
  deriving DecidableEq

/-- One filesystem entry: a path and its kind. -/
structure FSEntry where
  path : FsPath
  kind : FSKind
  deriving DecidableEq

/-- A filesystem: the finite list of its entries, in traversal order. -/
abbrev FileSystem := List FSEntry

/-- `leadsTo base p` holds when `base` is an initial segment of `p`
(so `p` is `base` itself or lies below it). -/
def leadsTo : FsPath → FsPath → Bool
  | [], _ => true
  | _ :: _, [] => false
  | a :: as, b :: bs => a == b && leadsTo as bs

/-- `p` lies strictly below `base`. -/
def isStrictUnder (p base : FsPath) : Bool :=
  leadsTo base p && decide (base.length < p.length)

/-- `src_path.rglob("*")`: every entry strictly below `src`, in
traversal order. -/
def rglob (fs : FileSystem) (src : FsPath) : List FSEntry :=
  fs.filter (fun e => isStrictUnder e.path src)

/-- Python's `path.stat` regular-file test without following links:
true only for the `file` kind. -/
def FSKind.isRegularFile : FSKind → Bool
  | .file _ => true
  | _ => false

/-- Python's `Path.is_file()`: true for a regular file, and for a
symlink that resolves to a regular file. -/
def FSKind.is_file : FSKind → Bool
  | .file _ => true
  | .symlink (some _) => true
  | _ => false

/-- The bytes obtained by resolving the entry (`Path.resolve()`) and
reading it, when the resolved entry is a regular file. -/
def FSKind.readBytes : FSKind → Option (List Nat)
  | .file c => some c
  | .symlink (some c) => some c
  | _ => none

/-- `path.relative_to(base)`: the remaining components when `base` is an
initial segment of `path`, otherwise `none` (pathlib raises
`ValueError`). -/
def relative_to (p base : FsPath) : Option FsPath :=
  if leadsTo base p then some (p.drop base.length) else none

/-- `str(...)` of a relative path: components joined by `/`. -/
def pathStr (p : FsPath) : String := String.intercalate "/" p

/-- The worker loop of `_recursive_relative_write`, over an explicit
entry list.  For each entry passing `is_file` (equivalently: whose
resolved bytes exist), compute the path relative to `base` — raising
(`Except.error`, carrying the archive as written so far) when the path
is not below `base` — and append `(str(relative), bytes)` to the
archive.  `mk` injects raw file bytes into the archive's entry-data
type. -/
def rrw_go {α : Type} (mk : List Nat → α) (base : FsPath) :
    List FSEntry → List (String × α) →
    Except (List (String × α)) (List (String × α))
  | [], zf => Except.ok zf
  | e :: es, zf =>
    match e.kind.readBytes with
    | some c =>
      match relative_to e.path base with
      | some rel => rrw_go mk base es (zf ++ [(pathStr rel, mk c)])
      | none => Except.error zf
    | none => rrw_go mk base es zf

/-- `TypescriptLanguagePlugin._recursive_relative_write(src, base, zip)`:
walk `src_path.rglob("*")` and write every `is_file` entry into the zip
under its path relative to `base`. -/
def recursive_relative_write {α : Type} (fs : FileSystem) (src base : FsPath)
    (zf : List (String × α)) (mk : List Nat → α) :
    Except (List (String × α)) (List (String × α)) :=
  rrw_go mk base (rglob fs src) zf

/-- Entry data of the output archive: raw file bytes, or the nested
`ResourceProvider.zip` blob holding the inner archive's entries. -/
inductive ZipEntryData where
  | fileBytes (b : List Nat)
  | innerZip (entries : List (String × List Nat))
  deriving DecidableEq

/-- The output archive: a sequential list of (name, data) entries. -/
abbrev Archive := List (String × ZipEntryData)

/-- The in-memory inner archive: (name, bytes) entries. -/
abbrev InnerArchive := List (String × List Nat)

/-- `TypescriptLanguagePlugin._pre_package(build_path)`: zip `build_path`
into a fresh in-memory archive, paths relative to `build_path` itself. -/
def pre_package (fs : FileSystem) (build_path : FsPath) :
    Except InnerArchive InnerArchive :=
  recursive_relative_write fs build_path build_path ([] : InnerArchive)
    (fun b => b)

/-- `shutil.rmtree` failures that the pipeline distinguishes. -/
inductive RmtreeError where
  | fileNotFoundError
  | notADirectoryError
  deriving DecidableEq

/-- Whether any entry exists at exactly path `p`. -/
def existsAt (fs : FileSystem) (p : FsPath) : Bool :=
  fs.any (fun e => e.path == p)

/-- `shutil.rmtree(p)`: remove the directory at `p` and everything below
it; `FileNotFoundError` when nothing exists at `p`, `NotADirectoryError`
when the entry at `p` is not a directory. -/
def rmtree (fs : FileSystem) (p : FsPath) : Except RmtreeError FileSystem :=
  match fs.find? (fun e => e.path == p) with
  | none => Except.error RmtreeError.fileNotFoundError
  | some e =>
    match e.kind with
    | FSKind.dir => Except.ok (fs.filter (fun e2 => !(leadsTo p e2.path)))
    | _ => Except.error RmtreeError.notADirectoryError

/-- `TypescriptLanguagePlugin._remove_build_artifacts(deps_path)`:
`rmtree`, swallowing exactly `FileNotFoundError` (logged and skipped). -/
def remove_build_artifacts (fs : FileSystem) (deps_path : FsPath) :
    Except RmtreeError FileSystem :=
  match rmtree fs deps_path with
  | Except.ok fs2 => Except.ok fs2
  | Except.error RmtreeError.fileNotFoundError => Except.ok fs
  | Except.error e => Except.error e

/-- `MAIN_HANDLER_FUNCTION` constant. -/
def MAIN_HANDLER_FUNCTION : String := "TypeFunction"

/-- `TypescriptLanguagePlugin._make_build_command(base_path, build_command)`:
the default `sam build --build-dir {base_path}/build`, replaced by the
override exactly when the override is truthy (a non-empty string). -/
def make_build_command (base_path : String) (build_command : Option String) :
    String :=
  let command := "sam build --build-dir " ++ base_path ++ "/build"
  match build_command with
  | some c => if c = "" then command else c
  | none => command

/-- The full command string `_build` executes: the composed base command,
then ` --use-container` when docker is enabled, then the handler token. -/
def build_full_command (base_path : String) (build_command : Option String)
    (use_docker : Bool) : String :=
  let command := make_build_command base_path build_command
  let command := if use_docker then command ++ " --use-container" else command
  command ++ " " ++ MAIN_HANDLER_FUNCTION

/-- A failure of the spawned build process: nonzero exit
(`CalledProcessError`) or the shell/tool not being found
(`FileNotFoundError`). -/
inductive ProcFailure where
  | calledProcessError (exitCode : Nat)
  | fileNotFoundError
  deriving DecidableEq

/-- The external world's response to running the build command: the
post-build filesystem on success, or a process failure. -/
inductive BuildOutcome where
  | success (postFs : FileSystem)
  | failure (f : ProcFailure)

/-- Errors surfaced by the packaging pipeline. -/
inductive PackageError where
  | downstreamError (msg : String) (cause : ProcFailure)
  | removalError (e : RmtreeError)
  | valueError
  deriving DecidableEq

/-- `TypescriptLanguagePlugin._build(base_path)`: compose the command,
run it, and convert either process failure into
`DownstreamError("local build failed")` chaining the cause. -/
def run_build (env : String → BuildOutcome) (base_path : String)
    (build_command : Option String) (use_docker : Bool) :
    Except PackageError FileSystem :=
  match env (build_full_command base_path build_command use_docker) with
  | BuildOutcome.success postFs => Except.ok postFs
  | BuildOutcome.failure f =>
    Except.error (PackageError.downstreamError "local build failed" f)

/-- The plugin settings consumed by packaging, as stored in the project's
settings mapping: `useDocker` and `buildCommand`, each possibly absent. -/
structure Settings where
  useDocker : Option Bool
  buildCommand : Option String
  deriving DecidableEq

/-- `_init_from_project`: `project.settings.get("useDocker", True)`. -/
def init_use_docker (s : Settings) : Bool := s.useDocker.getD true

/-- `_init_from_project`: `project.settings.get("buildCommand", None)`. -/
def init_build_command (s : Settings) : Option String := s.buildCommand

/-- The project descriptor fields packaging reads. -/
structure Project where
  root : FsPath
  settings : Settings

/-- The build-and-write tail of `package`: run the build, zip the build
output for the handler function into the nested archive, write that blob
as `ResourceProvider.zip`, then write the handler source tree relative
to the project root.  An error carries the output archive as written at
the moment of the raise. -/
def package_build_and_write (project : Project) (env : String → BuildOutcome)
    (zip_file : Archive) : Except (PackageError × Archive) Archive :=
  let build_path := project.root ++ ["build"]
  let handler_package_path := project.root ++ ["src"]
  match run_build env (pathStr project.root)
      (init_build_command project.settings)
      (init_use_docker project.settings) with
  | Except.error e => Except.error (e, zip_file)
  | Except.ok fs2 =>
    match pre_package fs2 (build_path ++ [MAIN_HANDLER_FUNCTION]) with
    | Except.error _ => Except.error (PackageError.valueError, zip_file)
    | Except.ok inner =>
      let zf1 := zip_file ++ [("ResourceProvider.zip", ZipEntryData.innerZip inner)]
      match recursive_relative_write fs2 handler_package_path project.root
          zf1 ZipEntryData.fileBytes with
      | Except.error zfErr => Except.error (PackageError.valueError, zfErr)
      | Except.ok zf2 => Except.ok zf2

/-- `TypescriptLanguagePlugin.package(project, zip_file)`: read settings,
remove stale build artifacts (absence swallowed), then build and write.
The filesystem after the build is supplied by `env` (the external build
tool owns the build directory), so a successful removal's result is
superseded by the post-build filesystem. -/
def package (project : Project) (env : String → BuildOutcome)
    (fs : FileSystem) (zip_file : Archive) :
    Except (PackageError × Archive) Archive :=
  let build_path := project.root ++ ["build"]
  match remove_build_artifacts fs build_path with
  | Except.error e => Except.error (PackageError.removalError e, zip_file)
  | Except.ok _ => package_build_and_write project env zip_file

/-- The image of one traversal entry in the archive: present exactly when
the entry resolves to readable bytes, and then carrying the relative
name (the path with the base prefix dropped) and the resolved bytes. -/
def writtenEntry {α : Type} (mk : List Nat → α) (base : FsPath)
    (e : FSEntry) : Option (String × α) :=
  match e.kind.readBytes with
  | some c => some (pathStr (e.path.drop base.length), mk c)
  | none => none

/-- The archive's state after a writer call, whether it returned normally
or raised (the zip handle is mutated in place, so on a raise it holds
everything written up to that point). -/
def archiveState {α : Type} :
    Except (List (String × α)) (List (String × α)) → List (String × α)
  | Except.ok zf => zf
  | Except.error zf => zf

end Codegen

namespace Codegen

/-- `is_file` holds exactly when resolved bytes are available. -/
theorem FSKind.is_file_eq_readBytes_isSome (k : FSKind) :
    k.is_file = k.readBytes.isSome := by
  cases k with
  | file c => rfl
  | dir => rfl
  | symlink t => cases t <;> rfl
  | special => rfl

theorem relative_to_of_leadsTo {p base : FsPath} (h : leadsTo base p = true) :
    relative_to p base = some (p.drop base.length) := by
  simp [relative_to, h]

theorem leadsTo_of_relative_to_some {p base : FsPath}
    (h : relative_to p base ≠ none) : leadsTo base p = true := by
  by_cases hl : leadsTo base p = true
  · exact hl
  · exact absurd (by simp [relative_to, hl]) h

theorem leadsTo_of_mem_rglob {fs : FileSystem} {src : FsPath} {e : FSEntry}
    (h : e ∈ rglob fs src) : leadsTo src e.path = true := by
  have hf := List.of_mem_filter h
  simp only [isStrictUnder, Bool.and_eq_true] at hf
  exact hf.1

theorem writtenEntry_isSome {α : Type} (mk : List Nat → α) (base : FsPath)
    (e : FSEntry) : (writtenEntry mk base e).isSome = e.kind.is_file := by
  rw [FSKind.is_file_eq_readBytes_isSome]
  cases h : e.kind.readBytes <;> simp [writtenEntry, h]

/-- Success form of the worker loop: when every file-like entry lies
below `base`, the loop succeeds and appends exactly the written image of
each file-like entry, in traversal order. -/
theorem rrw_go_eq_ok {α : Type} (mk : List Nat → α) (base : FsPath) :
    ∀ (entries : List FSEntry) (zf : List (String × α)),
    (∀ e ∈ entries, e.kind.readBytes.isSome = true → leadsTo base e.path = true) →
    rrw_go mk base entries zf
      = Except.ok (zf ++ entries.filterMap (writtenEntry mk base)) := by
  intro entries
  induction entries with
  | nil => intro zf _; simp [rrw_go]
  | cons e es ih =>
    intro zf h
    have hes : ∀ x ∈ es, x.kind.readBytes.isSome = true → leadsTo base x.path = true :=
      fun x hx => h x (List.mem_cons_of_mem e hx)
    cases hk : e.kind.readBytes with
    | none =>
      rw [show rrw_go mk base (e :: es) zf = rrw_go mk base es zf by
            simp [rrw_go, hk],
          ih zf hes]
      simp [List.filterMap_cons, writtenEntry, hk]
    | some c =>
      have he : leadsTo base e.path = true :=
        h e (List.mem_cons_self e es) (by simp [hk])
      have hrel := relative_to_of_leadsTo he
      rw [show rrw_go mk base (e :: es) zf
            = rrw_go mk base es (zf ++ [(pathStr (e.path.drop base.length), mk c)]) by
            simp [rrw_go, hk, hrel],
          ih _ hes]
      simp [List.filterMap_cons, writtenEntry, hk]

/-- Skipping form of the worker loop: entries that fail `is_file`
contribute nothing, so filtering them away beforehand changes nothing. -/
theorem rrw_go_filter_is_file {α : Type} (mk : List Nat → α) (base : FsPath) :
    ∀ (entries : List FSEntry) (zf : List (String × α)),
    rrw_go mk base (entries.filter (fun e => e.kind.is_file)) zf
      = rrw_go mk base entries zf := by
  intro entries
  induction entries with
  | nil => intro zf; rfl
  | cons e es ih =>
    intro zf
    have hfe := FSKind.is_file_eq_readBytes_isSome e.kind
    cases hk : e.kind.readBytes with
    | none =>
      have hff : e.kind.is_file = false := by rw [hfe, hk]; rfl
      simp only [List.filter_cons, hff, Bool.false_eq_true, if_false]
      rw [ih zf, show rrw_go mk base (e :: es) zf = rrw_go mk base es zf by
            simp [rrw_go, hk]]
    | some c =>
      have hft : e.kind.is_file = true := by rw [hfe, hk]; rfl
      simp only [List.filter_cons, hft, if_true]
      cases hrel : relative_to e.path base with
      | none => simp [rrw_go, hk, hrel]
      | some rel => simp [rrw_go, hk, hrel, ih]

/-- Filtering commutes with `rglob`. -/
theorem rglob_filter (p : FSEntry → Bool) (src : FsPath) :
    ∀ fs : FileSystem, rglob (fs.filter p) src = (rglob fs src).filter p := by
  intro fs
  induction fs with
  | nil => rfl
  | cons e es ih =>
    by_cases hp : p e = true <;>
      by_cases hu : isStrictUnder e.path src = true <;>
      simp_all [rglob, List.filter_cons]

end Codegen

namespace Codegen

/-- The worker loop only appends: whatever was in the archive before the
call is an initial segment of the archive afterwards, raise or not. -/
theorem rrw_go_appends {α : Type} (mk : List Nat → α) (base : FsPath) :
    ∀ (entries : List FSEntry) (zf : List (String × α)),
    ∃ rest, archiveState (rrw_go mk base entries zf) = zf ++ rest := by
  intro entries
  induction entries with
  | nil => intro zf; exact ⟨[], by simp [rrw_go, archiveState]⟩
  | cons e es ih =>
    intro zf
    cases hk : e.kind.readBytes with
    | none =>
      obtain ⟨rest, hrest⟩ := ih zf
      exact ⟨rest, by simp [rrw_go, hk, hrest]⟩
    | some c =>
      cases hrel : relative_to e.path base with
      | none => exact ⟨[], by simp [rrw_go, hk, hrel, archiveState]⟩
      | some rel =>
        obtain ⟨rest, hrest⟩ := ih (zf ++ [(pathStr rel, mk c)])
        refine ⟨(pathStr rel, mk c) :: rest, ?_⟩
        simp only [rrw_go, hk, hrel]
        rw [hrest, List.append_assoc, List.singleton_append]

/-- When some file-like entry of the list is not below `base`, the loop
raises (at the first such entry). -/
theorem rrw_go_error_of_violation {α : Type} (mk : List Nat → α)
    (base : FsPath) :
    ∀ (entries : List FSEntry) (zf : List (String × α)),
    (∃ e, e ∈ entries ∧ e.kind.readBytes.isSome = true ∧
      relative_to e.path base = none) →
    ∃ zfE, rrw_go mk base entries zf = Except.error zfE := by
  intro entries
  induction entries with
  | nil => intro zf h; obtain ⟨e, he, _, _⟩ := h; cases he
  | cons e es ih =>
    intro zf h
    cases hk : e.kind.readBytes with
    | none =>
      obtain ⟨w, hw, hws, hwr⟩ := h
      rcases List.mem_cons.mp hw with hwe | hwes
      · rw [hwe, hk] at hws; cases hws
      · obtain ⟨zfE, hz⟩ := ih zf ⟨w, hwes, hws, hwr⟩
        exact ⟨zfE, by simp [rrw_go, hk, hz]⟩
    | some c =>
      cases hrel : relative_to e.path base with
      | none => exact ⟨zf, by simp [rrw_go, hk, hrel]⟩
      | some rel =>
        obtain ⟨w, hw, hws, hwr⟩ := h
        rcases List.mem_cons.mp hw with hwe | hwes
        · rw [hwe] at hwr; rw [hwr] at hrel; cases hrel
        · obtain ⟨zfE, hz⟩ :=
            ih (zf ++ [(pathStr rel, mk c)]) ⟨w, hwes, hws, hwr⟩
          exact ⟨zfE, by simp [rrw_go, hk, hrel, hz]⟩

/-- When the loop returns normally, every file-like entry of the list was
below `base` (the relative-path computation succeeded for it). -/
theorem rrw_go_ok_entries_relative {α : Type} (mk : List Nat → α)
    (base : FsPath) :
    ∀ (entries : List FSEntry) (zf out : List (String × α)),
    rrw_go mk base entries zf = Except.ok out →
    ∀ e ∈ entries, e.kind.readBytes.isSome = true →
      relative_to e.path base ≠ none := by
  intro entries
  induction entries with
  | nil => intro zf out _ e he; cases he
  | cons e es ih =>
    intro zf out hok w hw hws
    cases hk : e.kind.readBytes with
    | none =>
      have hok2 : rrw_go mk base es zf = Except.ok out := by
        rw [show rrw_go mk base (e :: es) zf = rrw_go mk base es zf by
              simp [rrw_go, hk]] at hok
        exact hok
      rcases List.mem_cons.mp hw with hwe | hwes
      · rw [hwe, hk] at hws; cases hws
      · exact ih zf out hok2 w hwes hws
    | some c =>
      cases hrel : relative_to e.path base with
      | none =>
        rw [show rrw_go mk base (e :: es) zf = Except.error zf by
              simp [rrw_go, hk, hrel]] at hok
        cases hok
      | some rel =>
        have hok2 : rrw_go mk base es (zf ++ [(pathStr rel, mk c)])
            = Except.ok out := by
          rw [show rrw_go mk base (e :: es) zf
                = rrw_go mk base es (zf ++ [(pathStr rel, mk c)]) by
                simp [rrw_go, hk, hrel]] at hok
          exact hok
        rcases List.mem_cons.mp hw with hwe | hwes
        · rw [hwe, hrel]; exact fun hc => Option.noConfusion hc
        · exact ih _ out hok2 w hwes hws

/-- `find?` misses when `any` misses. -/
theorem find_eq_none_of_any_false {β : Type} (p : β → Bool) :
    ∀ l : List β, l.any p = false → l.find? p = none := by
  intro l
  induction l with
  | nil => intro _; rfl
  | cons x xs ih =>
    intro h
    simp only [List.any_cons, Bool.or_eq_false_iff] at h
    simp [List.find?_cons, h.1, ih h.2]

end Codegen

namespace Codegen

theorem append_handler_token (x : String) :
    (x ++ " ") ++ "TypeFunction" = x ++ " TypeFunction" := by
  rw [String.append_assoc]; rfl

theorem append_handler_token_empty (x : String) :
    (x ++ " ") ++ "TypeFunction" = x ++ "" ++ " TypeFunction" := by
  rw [String.append_empty, String.append_assoc]; rfl

/-- A regular file passes Python's `is_file` test. -/
theorem is_file_of_isRegularFile {k : FSKind} (h : k.isRegularFile = true) :
    k.is_file = true := by
  cases k with
  | file c => rfl
  | dir => simp [FSKind.isRegularFile] at h
  | symlink t => simp [FSKind.isRegularFile] at h
  | special => simp [FSKind.isRegularFile] at h

/-- C1: for a project whose root holds `src/handlers.ts` and
`src/models.ts`, and whose successful (mocked) build leaves exactly
`build/TypeFunction/index.js` as build output, `package` produces an
archive holding exactly `ResourceProvider.zip` (itself holding exactly
`index.js`, relative to `build/TypeFunction`), then `src/handlers.ts`,
then `src/models.ts`, in that order — the nested blob is written first. -/
theorem package_end_to_end :
    package ⟨["proj"], ⟨none, none⟩⟩
      (fun _ => BuildOutcome.success
        [⟨["proj"], FSKind.dir⟩, ⟨["proj", "src"], FSKind.dir⟩,
         ⟨["proj", "src", "handlers.ts"], FSKind.file [1]⟩,
         ⟨["proj", "src", "models.ts"], FSKind.file [2]⟩,
         ⟨["proj", "build"], FSKind.dir⟩,
         ⟨["proj", "build", "TypeFunction"], FSKind.dir⟩,
         ⟨["proj", "build", "TypeFunction", "index.js"], FSKind.file [3]⟩])
      [⟨["proj"], FSKind.dir⟩, ⟨["proj", "src"], FSKind.dir⟩,
       ⟨["proj", "src", "handlers.ts"], FSKind.file [1]⟩,
       ⟨["proj", "src", "models.ts"], FSKind.file [2]⟩]
      []
      = Except.ok
          [("ResourceProvider.zip", ZipEntryData.innerZip [("index.js", [3])]),
           ("src/handlers.ts", ZipEntryData.fileBytes [1]),
           ("src/models.ts", ZipEntryData.fileBytes [2])] := by rfl

/-- C2: when the spawned build process fails (nonzero exit, or the
shell/tool cannot be executed), `package` fails with
`DownstreamError "local build failed"` chaining the original process
failure as its cause, and the output archive is exactly as it was
before the call — nothing was written into it. -/
theorem package_build_failure_archive_unchanged
    (project : Project) (env : String → BuildOutcome) (fs fsr : FileSystem)
    (zf : Archive) (pf : ProcFailure)
    (hrm : remove_build_artifacts fs (project.root ++ ["build"])
      = Except.ok fsr)
    (henv : env (build_full_command (pathStr project.root)
        (init_build_command project.settings)
        (init_use_docker project.settings)) = BuildOutcome.failure pf) :
    package project env fs zf
      = Except.error
          (PackageError.downstreamError "local build failed" pf, zf) := by
  simp [package, hrm, package_build_and_write, run_build, henv]

theorem package_build_failure_archive_unchanged_witness :
    remove_build_artifacts [] ((["p"] : FsPath) ++ ["build"]) = Except.ok []
    ∧ package ⟨["p"], ⟨none, none⟩⟩
        (fun _ => BuildOutcome.failure (ProcFailure.calledProcessError 1)) [] []
      = Except.error
          (PackageError.downstreamError "local build failed"
            (ProcFailure.calledProcessError 1), []) :=
  ⟨rfl,
   package_build_failure_archive_unchanged ⟨["p"], ⟨none, none⟩⟩
     (fun _ => BuildOutcome.failure (ProcFailure.calledProcessError 1))
     [] [] [] (ProcFailure.calledProcessError 1) rfl rfl⟩

/-- C3 counterexample: a tree whose only entry is a symlink resolving to
a regular file contains no regular file, yet `writeTree(T, T, fresh)`
produces one entry for it (Python's `is_file` follows symlinks), so the
archive does not have exactly one entry per regular file. -/
theorem writeTree_symlink_entry_cex :
    recursive_relative_write [⟨["d", "s"], FSKind.symlink (some [3])⟩]
        ["d"] ["d"] ([] : InnerArchive) (fun b => b)
      = Except.ok [("s", [3])]
    ∧ (FSKind.symlink (some [3])).isRegularFile = false
    ∧ ([("s", [3])] : InnerArchive) ≠ [] :=
  ⟨rfl, rfl, by decide⟩

/-- C3 (amended): `writeTree(T, T, archive)` succeeds and appends exactly
one entry per traversal entry passing the `is_file` test — regular files
and symlinks resolving to regular files — no entries for directories or
other non-file entries, and each written entry's path is the entry's
path relative to `T` (`writtenEntry` records the dropped prefix and the
resolved bytes; it is `some` exactly on `is_file` entries). -/
theorem writeTree_entries_exact {α : Type} (mk : List Nat → α)
    (fs : FileSystem) (T : FsPath) (zf : List (String × α)) :
    recursive_relative_write fs T T zf mk
      = Except.ok (zf ++ (rglob fs T).filterMap (writtenEntry mk T))
    ∧ ∀ e : FSEntry, (writtenEntry mk T e).isSome = e.kind.is_file := by
  constructor
  · exact rrw_go_eq_ok mk T (rglob fs T) zf
      (fun e he _ => leadsTo_of_mem_rglob he)
  · exact fun e => writtenEntry_isSome mk T e

/-- C4 counterexample: supplying the override string `""` does not yield
`"" ++ flag ++ " TypeFunction"` — the empty override is falsy in the
settings lookup, so the synthesized default command is used instead. -/
theorem build_command_empty_override_cex :
    build_full_command "b" (some "") false
      = "sam build --build-dir b/build TypeFunction"
    ∧ build_full_command "b" (some "") false
      ≠ "" ++ (if false then " --use-container" else "") ++ " TypeFunction" :=
  ⟨by decide, by decide⟩

/-- C4 (amended): with no override the composed command is
`sam build --build-dir {b}/build`, then ` --use-container` exactly when
the container flag is set, then ` TypeFunction`; a *non-empty* override
`o` replaces only the base part, the flag and handler token still being
appended in that order (an empty override is falsy and is ignored). -/
theorem build_command_composition (b o : String) (d : Bool) :
    build_full_command b none d
      = "sam build --build-dir " ++ b ++ "/build"
        ++ (if d then " --use-container" else "") ++ " TypeFunction"
    ∧ (o ≠ "" → build_full_command b (some o) d
      = o ++ (if d then " --use-container" else "") ++ " TypeFunction") := by
  constructor
  · cases d with
    | true =>
      exact append_handler_token
        ("sam build --build-dir " ++ b ++ "/build" ++ " --use-container")
    | false =>
      exact append_handler_token_empty ("sam build --build-dir " ++ b ++ "/build")
  · intro ho
    have hmk : make_build_command b (some o) = o := by
      simp [make_build_command, ho]
    cases d with
    | true =>
      calc build_full_command b (some o) true
          = (make_build_command b (some o) ++ " --use-container" ++ " ")
              ++ "TypeFunction" := rfl
        _ = (o ++ " --use-container" ++ " ") ++ "TypeFunction" := by rw [hmk]
        _ = o ++ " --use-container" ++ " TypeFunction" :=
            append_handler_token (o ++ " --use-container")
    | false =>
      calc build_full_command b (some o) false
          = (make_build_command b (some o) ++ " ") ++ "TypeFunction" := rfl
        _ = (o ++ " ") ++ "TypeFunction" := by rw [hmk]
        _ = o ++ "" ++ " TypeFunction" := append_handler_token_empty o

theorem build_command_composition_witness :
    ("npx webpack" : String) ≠ ""
    ∧ build_full_command "base" (some "npx webpack") true
      = "npx webpack" ++ (if true then " --use-container" else "")
        ++ " TypeFunction" :=
  ⟨by decide,
   (build_command_composition "base" "npx webpack" true).2 (by decide)⟩

end Codegen

namespace Codegen

/-- C5 counterexample: a symlink resolving to a regular file is *not*
skipped — Python's `is_file` follows links, so the traversal writes an
entry for it (with the resolved target's bytes). -/
theorem writeTree_symlink_not_skipped_cex :
    recursive_relative_write [⟨["t", "ln"], FSKind.symlink (some [7])⟩]
        ["t"] ["t"] ([] : InnerArchive) (fun b => b)
      = Except.ok [("ln", [7])]
    ∧ (FSKind.symlink (some [7])).isRegularFile = false
    ∧ ([("ln", [7])] : InnerArchive) ≠ [] :=
  ⟨rfl, rfl, by decide⟩

/-- C5 (amended): entries failing the `is_file` test — directories,
special files, and symlinks that do not resolve to regular files — are
skipped silently: deleting them from the tree changes neither the
archive nor the success of the call, and `is_file` holds exactly for
regular files and symlinks resolving to regular files (which *are*
archived, following the link). -/
theorem writeTree_skips_nonfiles {α : Type} (mk : List Nat → α)
    (fs : FileSystem) (src base : FsPath) (zf : List (String × α)) :
    recursive_relative_write fs src base zf mk
      = recursive_relative_write (fs.filter (fun e => e.kind.is_file))
          src base zf mk
    ∧ (∀ k : FSKind, k.is_file = true ↔
        (k.isRegularFile = true ∨ ∃ c, k = FSKind.symlink (some c))) := by
  constructor
  · show rrw_go mk base (rglob fs src) zf
      = rrw_go mk base (rglob (fs.filter (fun e => e.kind.is_file)) src) zf
    rw [rglob_filter, rrw_go_filter_is_file]
  · intro k
    cases k with
    | file c => simp [FSKind.is_file, FSKind.isRegularFile]
    | dir => simp [FSKind.is_file, FSKind.isRegularFile]
    | symlink t =>
      cases t with
      | none => simp [FSKind.is_file, FSKind.isRegularFile]
      | some c => exact ⟨fun _ => Or.inr ⟨c, rfl⟩, fun _ => rfl⟩
    | special => simp [FSKind.is_file, FSKind.isRegularFile]

/-- C6: when nothing exists at the build path, artifact removal is a
no-op that raises nothing, and `package` proceeds to the build step
(its run equals the build-and-write tail of the pipeline). -/
theorem remove_artifacts_absent_noop (project : Project)
    (env : String → BuildOutcome) (fs : FileSystem) (zf : Archive)
    (h : existsAt fs (project.root ++ ["build"]) = false) :
    remove_build_artifacts fs (project.root ++ ["build"]) = Except.ok fs
    ∧ package project env fs zf = package_build_and_write project env zf := by
  have hfind : fs.find? (fun e => e.path == project.root ++ ["build"]) = none :=
    find_eq_none_of_any_false _ fs h
  have hrm : remove_build_artifacts fs (project.root ++ ["build"])
      = Except.ok fs := by
    simp [remove_build_artifacts, rmtree, hfind]
  exact ⟨hrm, by simp [package, hrm]⟩

theorem remove_artifacts_absent_noop_witness :
    remove_build_artifacts [] ((["p"] : FsPath) ++ ["build"]) = Except.ok []
    ∧ package ⟨["p"], ⟨none, none⟩⟩ (fun _ => BuildOutcome.success []) [] []
      = package_build_and_write ⟨["p"], ⟨none, none⟩⟩
          (fun _ => BuildOutcome.success []) [] :=
  remove_artifacts_absent_noop ⟨["p"], ⟨none, none⟩⟩
    (fun _ => BuildOutcome.success []) [] [] rfl

/-- C7: the artifact writer only appends.  Whether the call returns
normally or raises mid-way, the archive afterwards is the original
archive followed by some new entries: every pre-existing entry is still
present, at its position, with identical name and bytes. -/
theorem writeTree_appends_only {α : Type} (mk : List Nat → α)
    (fs : FileSystem) (src base : FsPath) (zf : List (String × α)) :
    ∃ rest, archiveState (recursive_relative_write fs src base zf mk)
      = zf ++ rest :=
  rrw_go_appends mk base (rglob fs src) zf

/-- C8: the writer is deterministic — invoked over equivalent trees
against fresh archives, it yields identical archive entry lists (the
embedding's traversal order is the implementation's stable order). -/
theorem writeTree_deterministic (fs fs2 : FileSystem) (T : FsPath)
    (h : fs = fs2) :
    recursive_relative_write fs T T ([] : InnerArchive) (fun b => b)
      = recursive_relative_write fs2 T T ([] : InnerArchive) (fun b => b) := by
  rw [h]

theorem writeTree_deterministic_witness :
    recursive_relative_write [⟨["t", "a.txt"], FSKind.file [5]⟩] ["t"] ["t"]
        ([] : InnerArchive) (fun b => b)
      = recursive_relative_write [⟨["t", "a.txt"], FSKind.file [5]⟩] ["t"] ["t"]
        ([] : InnerArchive) (fun b => b) :=
  writeTree_deterministic [⟨["t", "a.txt"], FSKind.file [5]⟩]
    [⟨["t", "a.txt"], FSKind.file [5]⟩] ["t"] rfl

/-- C9: with no `useDocker` key the containerized build is selected by
default — the composed command is the base command with
` --use-container` appended before the handler token; with
`useDocker = false` the flag is not appended and the composed command is
the base command followed directly by the handler token. -/
theorem use_docker_default_and_flag (b : String) (s : Settings) :
    (s.useDocker = none →
      init_use_docker s = true ∧
      build_full_command b (init_build_command s) (init_use_docker s)
        = make_build_command b (init_build_command s)
          ++ " --use-container" ++ " TypeFunction")
    ∧ (s.useDocker = some false →
      init_use_docker s = false ∧
      build_full_command b (init_build_command s) (init_use_docker s)
        = make_build_command b (init_build_command s) ++ " TypeFunction") := by
  constructor
  · intro h
    have hd : init_use_docker s = true := by simp [init_use_docker, h]
    refine ⟨hd, ?_⟩
    rw [hd]
    exact append_handler_token
      (make_build_command b (init_build_command s) ++ " --use-container")
  · intro h
    have hd : init_use_docker s = false := by simp [init_use_docker, h]
    refine ⟨hd, ?_⟩
    rw [hd]
    exact append_handler_token (make_build_command b (init_build_command s))

theorem use_docker_default_and_flag_witness :
    (init_use_docker ⟨none, none⟩ = true ∧
      build_full_command "p" (init_build_command ⟨none, none⟩)
          (init_use_docker ⟨none, none⟩)
        = make_build_command "p" (init_build_command ⟨none, none⟩)
          ++ " --use-container" ++ " TypeFunction")
    ∧ (init_use_docker ⟨some false, none⟩ = false ∧
      build_full_command "p" (init_build_command ⟨some false, none⟩)
          (init_use_docker ⟨some false, none⟩)
        = make_build_command "p" (init_build_command ⟨some false, none⟩)
          ++ " TypeFunction") :=
  ⟨(use_docker_default_and_flag "p" ⟨none, none⟩).1 rfl,
   (use_docker_default_and_flag "p" ⟨some false, none⟩).2 rfl⟩

/-- C10: the writer is well-defined only when every file-like entry
under `src` lies under `base`: if some `is_file` entry's path is not
relative to `base`, the relative-path computation raises (aborting the
write, producing no entry for it); conversely a normal return implies
every regular file of the traversal admitted a relative path. -/
theorem writeTree_base_dir_precondition {α : Type} (mk : List Nat → α)
    (fs : FileSystem) (src base : FsPath) (zf : List (String × α)) :
    ((∃ e, e ∈ rglob fs src ∧ e.kind.is_file = true ∧
        relative_to e.path base = none) →
      ∃ zfE, recursive_relative_write fs src base zf mk = Except.error zfE)
    ∧ (∀ out, recursive_relative_write fs src base zf mk = Except.ok out →
      ∀ e ∈ rglob fs src, e.kind.isRegularFile = true →
        relative_to e.path base ≠ none) := by
  constructor
  · intro hex
    obtain ⟨e, he, hf, hr⟩ := hex
    refine rrw_go_error_of_violation mk base (rglob fs src) zf ⟨e, he, ?_, hr⟩
    rw [← FSKind.is_file_eq_readBytes_isSome]
    exact hf
  · intro out hok e he hreg
    refine rrw_go_ok_entries_relative mk base (rglob fs src) zf out hok e he ?_
    rw [← FSKind.is_file_eq_readBytes_isSome]
    exact is_file_of_isRegularFile hreg

theorem writeTree_base_dir_precondition_witness :
    ∃ zfE, recursive_relative_write [⟨["a", "f"], FSKind.file [1]⟩]
        ["a"] ["b"] ([] : InnerArchive) (fun b => b) = Except.error zfE :=
  (writeTree_base_dir_precondition (fun b => b)
      [⟨["a", "f"], FSKind.file [1]⟩] ["a"] ["b"] []).1
    ⟨⟨["a", "f"], FSKind.file [1]⟩, by decide, rfl, by decide⟩

end Codegen
